import Mathlib

/-!
Shallow embedding of the core of `trust_simulator.py` and `claude_prompt.py`
(repository `game-theory-with-ai`): the two-action trust game, the built-in
strategies, the payoff matrix, the match engine (`play_match_record`), the
round-robin tournament (`run_tournament_record`), the evolution step
(`evolve_population`), and the external decision provider (`call_claude`).

Python's `random.choice` / `random.randint` calls are modelled as oracle
streams passed explicitly; stateful strategy fields (`Grudger.grudge`,
`Detective.switched`) are threaded as an explicit `Bool` state.
-/

namespace TrustSim

/-- The two actions of the game, the strings `'TRUST'` / `'CHEAT'` in the source
(`cooperate` / `defect` in the specification's vocabulary). -/
inductive Action where
  | TRUST
  | CHEAT
deriving DecidableEq, Repr, Fintype

/-- The eight built-in strategy identifiers of `CONFIG['strategies']`. -/
inductive StrategyName where
  | AlwaysTrust
  | AlwaysCheat
  | TitForTat
  | Grudger
  | Detective
  | Simpleton
  | Random
  | Copykitten
deriving DecidableEq, Repr, Fintype

open Action

/-- `history[-1][0]`: the opponent's move in the most recent history entry
(history entries are `(opponent_move, own_move)` pairs, oldest first). -/
def lastOpp (h : List (Action × Action)) : Action :=
  match h.reverse with
  | [] => TRUST
  | p :: _ => p.1

/-- `Strategy.decide(history)` for each subclass of `Strategy` in
`trust_simulator.py`. The `Bool` argument is the strategy-local mutable state
(`Grudger.grudge`, `Detective.switched`; `false` and ignored for the stateless
variants), returned updated. The extra `Action` argument is the value
`random.choice(['TRUST', 'CHEAT'])` would produce, consumed only by `Random`. -/
def Strategy.decide :
    StrategyName → Bool → List (Action × Action) → Action → Action × Bool
  | .AlwaysTrust, s, _, _ => (TRUST, s)
  | .AlwaysCheat, s, _, _ => (CHEAT, s)
  | .TitForTat, s, h, _ =>
      (match h with
       | [] => TRUST
       | _ => lastOpp h, s)
  | .Grudger, g, h, _ =>
      if h.isEmpty then (TRUST, false)
      else
        let g' := g || h.any (fun p => p.1 == CHEAT)
        ((if g' then CHEAT else TRUST), g')
  | .Detective, sw, h, _ =>
      let sw1 := sw || h.any (fun p => p.1 == CHEAT)
      if sw1 then
        (match h with
         | [] => TRUST
         | _ => lastOpp h, sw1)
      else
        match h.length with
        | 0 => (TRUST, sw1)
        | 1 => (CHEAT, sw1)
        | 2 => (TRUST, sw1)
        | 3 => (TRUST, sw1)
        | _ + 4 => (CHEAT, true)
  | .Simpleton, s, h, _ =>
      (match h.reverse with
       | [] => TRUST
       | (opp, own) :: _ => if own == TRUST && opp == CHEAT then CHEAT else own, s)
  | .Random, s, _, r => (r, s)
  | .Copykitten, s, h, _ =>
      (match h.reverse with
       | p1 :: p2 :: _ =>
           if p1.1 == CHEAT && p2.1 == CHEAT then CHEAT else TRUST
       | _ => TRUST, s)

/-- The `Agent` class: strategy name, strategy-local state (the freshly
constructed strategy instance's state), accumulated score, per-match history. -/
structure Agent where
  strategy_name : StrategyName
  stratState : Bool
  score : Int
  history : List (Action × Action)
deriving DecidableEq, Repr

/-- `Agent.__init__`: fresh strategy instance (state `false`), score 0, empty history. -/
def Agent.mk0 (n : StrategyName) : Agent :=
  { strategy_name := n, stratState := false, score := 0, history := [] }

/-- `Agent.reset`: reinstantiate the strategy, zero the score, clear the history. -/
def Agent.reset (a : Agent) : Agent :=
  { a with stratState := false, score := 0, history := [] }

/-- `Agent.clone`: a brand-new agent with the same strategy name. -/
def Agent.clone (a : Agent) : Agent :=
  Agent.mk0 a.strategy_name

/-- `PAYOFF_MATRIX`: `(agent move, opponent move) -> (agent points, opponent points)`. -/
def PAYOFF_MATRIX : Action × Action → Int × Int
  | (TRUST, TRUST) => (2, 2)
  | (TRUST, CHEAT) => (-1, 3)
  | (CHEAT, TRUST) => (3, -1)
  | (CHEAT, CHEAT) => (0, 0)

/-- One entry of the match record built by `play_match_record`. -/
structure RoundEntry where
  agent_move : Action
  opponent_move : Action
  agent_payoff : Int
  opponent_payoff : Int
  agent_strategy : StrategyName
  opponent_strategy : StrategyName
deriving DecidableEq, Repr

/-- The per-round loop of `play_match_record`: `n` rounds remain, `k` rounds
already played; `ra`, `rb` are the `random.choice` oracle streams for the two
agents' `Random` strategies, indexed by round. Returns the two updated agents
and the match record of the remaining rounds. -/
def playLoop (ra rb : Nat → Action) :
    Nat → Nat → Agent → Agent → Agent × Agent × List RoundEntry
  | 0, _, a, b => (a, b, [])
  | n + 1, k, a, b =>
      let da := Strategy.decide a.strategy_name a.stratState a.history (ra k)
      let db := Strategy.decide b.strategy_name b.stratState b.history (rb k)
      let p := PAYOFF_MATRIX (da.1, db.1)
      let a' : Agent := { a with stratState := da.2, score := a.score + p.1,
                                 history := a.history ++ [(db.1, da.1)] }
      let b' : Agent := { b with stratState := db.2, score := b.score + p.2,
                                 history := b.history ++ [(da.1, db.1)] }
      let e : RoundEntry :=
        ⟨da.1, db.1, p.1, p.2, a.strategy_name, b.strategy_name⟩
      let rest := playLoop ra rb n (k + 1) a' b'
      (rest.1, rest.2.1, e :: rest.2.2)

/-- `play_match_record(agent, opponent, rounds)`: clears both per-match
histories (scores and strategy state are NOT cleared here), then plays
`rounds` rounds. Returns `(agent, opponent, match_history)`. -/
def play_match_record (a b : Agent) (ra rb : Nat → Action) (rounds : Nat) :
    Agent × Agent × List RoundEntry :=
  playLoop ra rb rounds 0 { a with history := [] } { b with history := [] }

/-- One element of the list returned by `run_tournament_record`. -/
structure MatchRecord where
  agent_index : Nat
  opponent_index : Nat
  agent_strategy : StrategyName
  opponent_strategy : StrategyName
  rounds : List RoundEntry
deriving DecidableEq, Repr

/-- The ordered pairs `(i, j)` with `i < j < k` produced by the nested
`for i ... for j ... if i < j` loops of `run_tournament_record`. -/
def pairsList (k : Nat) : List (Nat × Nat) :=
  (List.range k).flatMap fun i =>
    ((List.range k).filter fun j => decide (i < j)).map fun j => (i, j)

/-- Placeholder agent for out-of-range list indexing (never reached: the
indices used come from `pairsList agents.length`). -/
def defaultAgent : Agent := Agent.mk0 .AlwaysTrust

/-- The body of `run_tournament_record`'s double loop, iterating over the
pairs `(i, j)` in loop order. `m` is the number of matches already played;
`rolls m` is the round count drawn for match `m`; `randA`/`randB` are the
`random.choice` oracles for match `m`. The agent list is threaded through, as
the Python code mutates the agents in place. -/
def runMatches (randA randB : Nat → Nat → Action) (rolls : Nat → Nat) :
    List (Nat × Nat) → Nat → List Agent → List MatchRecord × List Agent
  | [], _, ags => ([], ags)
  | (i, j) :: ps, m, ags =>
      let a := ags.getD i defaultAgent
      let b := ags.getD j defaultAgent
      let r := play_match_record a b (randA m) (randB m) (rolls m)
      let ags' := (ags.set i r.1).set j r.2.1
      let rest := runMatches randA randB rolls ps (m + 1) ags'
      (⟨i, j, a.strategy_name, b.strategy_name, r.2.2⟩ :: rest.1, rest.2)

/-- `rounds_per_game` is either a fixed integer or an inclusive random range
(a tuple in the Python source). -/
def RoundsSpec := Nat ⊕ Nat × Nat

/-- `run_tournament_record(agents, rounds_per_game)`. `randint m lo hi` models
the `random.randint(lo, hi)` draw made for match `m` when `rounds_per_game`
is a tuple. Returns the match records and the final (mutated) agent list. -/
def run_tournament_record (agents : List Agent) (spec : RoundsSpec)
    (randint : Nat → Nat → Nat → Nat) (randA randB : Nat → Nat → Action) :
    List MatchRecord × List Agent :=
  runMatches randA randB
    (fun m => match spec with
      | .inl n => n
      | .inr lohi => randint m lohi.1 lohi.2)
    (pairsList agents.length) 0 agents

/-- `sorted(agents, key=lambda a: a.score)`: stable ascending sort by score. -/
def sortAgents (agents : List Agent) : List Agent :=
  agents.mergeSort fun a b => a.score ≤ b.score

/-- `evolve_population(agents, eliminate_n, clone_n)`. `agents[eliminate_n:]`
is `drop eliminate_n`; `agents[-clone_n:]` is the whole list when
`clone_n = 0` and the last `min clone_n len` elements otherwise (Python
negative-slice semantics); every resulting agent is reset. -/
def evolve_population (agents : List Agent) (eliminate_n clone_n : Nat) :
    List Agent :=
  let sorted := sortAgents agents
  let survivors := sorted.drop eliminate_n
  let best := if clone_n = 0 then sorted
              else sorted.drop (sorted.length - clone_n)
  let clones := best.map Agent.clone
  (survivors ++ clones).map Agent.reset

/-- One outcome of one attempt of the `for attempt in ...` loop of
`call_claude`: the `requests.post` call itself raises (propagating out of the
function, since it sits outside the `try` block), or the `try` block raises
(bad HTTP status, malformed JSON, missing/ill-typed fields — caught by the
`except`), or the response parses to a JSON object whose optional `action`
and `reason` fields are as given. -/
inductive Attempt where
  | postRaises
  | parseFails
  | parsed (action : Option String) (reason : Option String)

/-- Lines 58-60 of `claude_prompt.py`:
`move = result.get("action", "TRUST").upper()`, coerced to `"TRUST"` unless it
is `"TRUST"` or `"CHEAT"`. -/
def normalizeMove (action : Option String) : String :=
  let move := (action.getD "TRUST").toUpper
  if ¬(move = "TRUST" ∨ move = "CHEAT") then "TRUST" else move

/-- Lines 61-62: `result.get("reason", "No reasoning provided.")[:40]`. -/
def normalizeReason (reason : Option String) : String :=
  (reason.getD "No reasoning provided.").take 40

/-- The retry loop of `call_claude`: attempt `i`, with `remaining` further
retries allowed. `Except.error` models an uncaught exception propagating to
the caller. -/
def call_claude_go (attempts : Nat → Attempt) :
    Nat → Nat → Except Unit (String × String)
  | i, remaining =>
      match attempts i with
      | .postRaises => .error ()
      | .parsed action reason => .ok (normalizeMove action, normalizeReason reason)
      | .parseFails =>
          match remaining with
          | 0 => .ok ("TRUST", "Claude error: see logs")
          | r + 1 => call_claude_go attempts (i + 1) r

/-- `call_claude(prompt, max_retries)`: runs attempts `0 .. max_retries`. -/
def call_claude (attempts : Nat → Attempt) (max_retries : Nat) :
    Except Unit (String × String) :=
  call_claude_go attempts 0 max_retries

/-- Lines 515-520 of `trust_simulator.py` (`_run_simulation`): if
`call_claude` raises, the handler sets `self.running = False` and returns —
the match is aborted and the round is not recorded (`none`); otherwise the
round proceeds with the returned `(move, reasoning)`. -/
def simRoundClaude (res : Except Unit (String × String)) :
    Option (String × String) :=
  match res with
  | .error _ => none
  | .ok mr => some mr

/-- The successive `decide` calls made on the Detective seat over one match:
round by round, the opponent's moves are `os`; the accumulated history `h`
receives `(opponent_move, own_move)` each round exactly as `play_match_record`
appends it, and the `switched` state `sw` is threaded through. Returns
Detective's moves. (The `random.choice` oracle is irrelevant to Detective.) -/
def detectiveRun : List Action → List (Action × Action) → Bool → List Action
  | [], _, _ => []
  | o :: os, h, sw =>
      let d := Strategy.decide .Detective sw h TRUST
      d.1 :: detectiveRun os (h ++ [(o, d.1)]) d.2

/-- Detective's moves over a whole match in which the opponent plays `os`:
fresh instance (`switched = false`), empty history. -/
def detectiveMoves (os : List Action) : List Action :=
  detectiveRun os [] false

/-- Detective's fixed opening probe. -/
def probeList : List Action := [TRUST, CHEAT, TRUST, TRUST]

end TrustSim

namespace TrustSim

open Action

/-! ### Theorems -/

/-- C1 (amended): every built-in strategy variant other than Random and
Always Cheat returns cooperate (`TRUST`) on the empty history, whatever its
internal state and whatever the random draw; Always Cheat returns `CHEAT`. -/
theorem C1_opening_move_cooperate :
    ∀ (n : StrategyName) (s : Bool) (r : Action),
      n ≠ .Random → n ≠ .AlwaysCheat → (Strategy.decide n s [] r).1 = TRUST := by
  decide

/-- C1 witness: Tit-for-Tat's opening move is cooperate. -/
theorem C1_opening_move_cooperate_witness :
    (Strategy.decide .TitForTat false [] TRUST).1 = TRUST :=
  C1_opening_move_cooperate .TitForTat false TRUST (by decide) (by decide)

/-- C1 counterexample: Always Cheat's `decide` on the empty history returns
`CHEAT` (defect), not cooperate, refuting the claim as stated. -/
theorem C1_alwayscheat_opening_defects :
    (Strategy.decide .AlwaysCheat false [] TRUST).1 = CHEAT ∧ CHEAT ≠ TRUST := by
  decide

/-- C6: the payoff table takes the four canonical values and is antisymmetric
under role swap: `lookup(a,b) = swap(lookup(b,a))` for every ordered pair. -/
theorem C6_payoff_table_canonical_and_antisymmetric :
    PAYOFF_MATRIX (TRUST, TRUST) = (2, 2) ∧
    PAYOFF_MATRIX (TRUST, CHEAT) = (-1, 3) ∧
    PAYOFF_MATRIX (CHEAT, TRUST) = (3, -1) ∧
    PAYOFF_MATRIX (CHEAT, CHEAT) = (0, 0) ∧
    ∀ a b : Action, PAYOFF_MATRIX (a, b) = (PAYOFF_MATRIX (b, a)).swap := by
  decide

/-- The match-engine loop plays exactly the requested number of rounds and
adds each side's per-round payoffs to that side's score. -/
theorem playLoop_length_score (ra rb : Nat → Action) :
    ∀ (n k : Nat) (a b : Agent),
      (playLoop ra rb n k a b).2.2.length = n ∧
      (playLoop ra rb n k a b).1.score =
        a.score + ((playLoop ra rb n k a b).2.2.map RoundEntry.agent_payoff).sum ∧
      (playLoop ra rb n k a b).2.1.score =
        b.score + ((playLoop ra rb n k a b).2.2.map RoundEntry.opponent_payoff).sum := by
  intro n
  induction n with
  | zero => intro k a b; simp [playLoop]
  | succ m ih =>
      intro k a b
      have h := ih (k + 1)
        { a with stratState := (Strategy.decide a.strategy_name a.stratState a.history (ra k)).2,
                 score := a.score + (PAYOFF_MATRIX ((Strategy.decide a.strategy_name a.stratState a.history (ra k)).1,
                   (Strategy.decide b.strategy_name b.stratState b.history (rb k)).1)).1,
                 history := a.history ++ [((Strategy.decide b.strategy_name b.stratState b.history (rb k)).1,
                   (Strategy.decide a.strategy_name a.stratState a.history (ra k)).1)] }
        { b with stratState := (Strategy.decide b.strategy_name b.stratState b.history (rb k)).2,
                 score := b.score + (PAYOFF_MATRIX ((Strategy.decide a.strategy_name a.stratState a.history (ra k)).1,
                   (Strategy.decide b.strategy_name b.stratState b.history (rb k)).1)).2,
                 history := b.history ++ [((Strategy.decide a.strategy_name a.stratState a.history (ra k)).1,
                   (Strategy.decide b.strategy_name b.stratState b.history (rb k)).1)] }
      simp only [playLoop, List.length_cons, List.map_cons, List.sum_cons] at h ⊢
      refine ⟨by omega, ?_, ?_⟩
      · rw [h.2.1]; ring
      · rw [h.2.2]; ring

/-- C4: `play_match_record` with `round_count = N` produces exactly `N` round
entries, each agent's score increases by exactly the sum of that agent's
per-round payoffs in the record, and `N = 0` yields an empty record and
leaves both scores unchanged. -/
theorem C4_play_match_record_length_and_scores :
    ∀ (a b : Agent) (ra rb : Nat → Action) (n : Nat),
      ((play_match_record a b ra rb n).2.2.length = n ∧
       (play_match_record a b ra rb n).1.score =
         a.score + ((play_match_record a b ra rb n).2.2.map RoundEntry.agent_payoff).sum ∧
       (play_match_record a b ra rb n).2.1.score =
         b.score + ((play_match_record a b ra rb n).2.2.map RoundEntry.opponent_payoff).sum) ∧
      ((play_match_record a b ra rb 0).2.2 = [] ∧
       (play_match_record a b ra rb 0).1.score = a.score ∧
       (play_match_record a b ra rb 0).2.1.score = b.score) := by
  intro a b ra rb n
  have hn := playLoop_length_score ra rb n 0 { a with history := [] } { b with history := [] }
  exact ⟨hn, by simp [play_match_record, playLoop], by simp [play_match_record, playLoop],
         by simp [play_match_record, playLoop]⟩

/-- Size of the population returned by `evolve_population`:
`len - eliminate_n` survivors plus the clones (`len` of them when
`clone_n = 0`, because `agents[-0:]` is the whole list; the last
`min clone_n len` otherwise). -/
theorem evolve_population_length (agents : List Agent) (e c : Nat) :
    (evolve_population agents e c).length =
      (agents.length - e) +
        (if c = 0 then agents.length else agents.length - (agents.length - c)) := by
  have hL : (sortAgents agents).length = agents.length := by
    simp [sortAgents, List.length_mergeSort]
  by_cases hc : c = 0 <;>
    simp [evolve_population, hc, hL]

/-- Every agent returned by `evolve_population` has been reset: zero score,
empty history, freshly reinstantiated (state-cleared) strategy. -/
theorem evolve_population_resets (agents : List Agent) (e c : Nat) :
    ∀ a ∈ evolve_population agents e c,
      a.score = 0 ∧ a.history = [] ∧ a.stratState = false := by
  intro a ha
  simp only [evolve_population, List.mem_map] at ha
  obtain ⟨b, -, rfl⟩ := ha
  exact ⟨rfl, rfl, rfl⟩

/-- C2 (amended): for every population of size `K` and every
`eliminate_n = clone_n = E` with `E ≥ 1`, `evolve_population` returns exactly
`K` agents, each with score 0, empty history and cleared strategy state.
(For `E = 0` the population doubles instead, see the counterexample.) -/
theorem C2_evolve_conserves_size_and_resets
    (agents : List Agent) (E : Nat) (hE : 1 ≤ E) :
    (evolve_population agents E E).length = agents.length ∧
    ∀ a ∈ evolve_population agents E E,
      a.score = 0 ∧ a.history = [] ∧ a.stratState = false := by
  refine ⟨?_, evolve_population_resets agents E E⟩
  rw [evolve_population_length]
  have : ¬ E = 0 := by omega
  simp only [this, if_false]
  omega

/-- C2 witness: a one-agent population with `E = 1` keeps size 1 and is reset. -/
theorem C2_evolve_conserves_size_and_resets_witness :
    (evolve_population [Agent.mk0 .AlwaysTrust] 1 1).length = 1 ∧
    ∀ a ∈ evolve_population [Agent.mk0 .AlwaysTrust] 1 1,
      a.score = 0 ∧ a.history = [] ∧ a.stratState = false := by
  have h := C2_evolve_conserves_size_and_resets [Agent.mk0 .AlwaysTrust] 1 (by decide)
  simpa using h

/-- C2 counterexample: with `eliminate_n = clone_n = 0` on a population of
size 1, `evolve_population` returns 2 agents (`agents[-0:]` clones everyone),
so the claimed size conservation fails for `E = 0`. -/
theorem C2_evolve_doubles_at_zero :
    (evolve_population [Agent.mk0 .AlwaysTrust] 0 0).length = 2 ∧ (2 : Nat) ≠ 1 := by
  rw [evolve_population_length]
  simp

/-- C7 (amended): a configuration with `eliminate_n` and `clone_n` exceeding
the population size is not rejected: `evolve_population` is total and simply
returns the reset clones of the whole sorted population (Python's slicing
never raises on out-of-range bounds). -/
theorem C7_no_validation_of_config
    (agents : List Agent) (e c : Nat)
    (he : agents.length ≤ e) (hc : agents.length ≤ c) (hc1 : 1 ≤ c) :
    evolve_population agents e c =
      (sortAgents agents).map fun a => Agent.mk0 a.strategy_name := by
  have hL : (sortAgents agents).length = agents.length := by
    simp [sortAgents, List.length_mergeSort]
  have hdrop : (sortAgents agents).drop e = [] := by
    apply List.drop_eq_nil_of_le; omega
  have hc0 : ¬ c = 0 := by omega
  have hsub : (sortAgents agents).length - c = 0 := by omega
  simp [evolve_population, hc0, hdrop, hsub, Agent.reset, Agent.clone, Agent.mk0]

/-- C7 witness: `eliminate_n = clone_n = 2` on a population of size 1 is
accepted and produces the reset clone of the single agent. -/
theorem C7_no_validation_of_config_witness :
    evolve_population [Agent.mk0 .AlwaysTrust] 2 2 =
      (sortAgents [Agent.mk0 .AlwaysTrust]).map fun a => Agent.mk0 a.strategy_name :=
  C7_no_validation_of_config [Agent.mk0 .AlwaysTrust] 2 2 (by decide) (by decide) (by decide)

/-- C7 counterexample: at the invalid configuration `eliminate_n = clone_n = 2`
on a population of size 1, the code returns a normal population (no error is
raised before — or during — the generation). -/
theorem C7_invalid_config_returns_normally :
    evolve_population [Agent.mk0 .AlwaysTrust] 2 2 = [Agent.mk0 .AlwaysTrust] := by
  have h := C7_no_validation_of_config [Agent.mk0 .AlwaysTrust] 2 2
    (by decide) (by decide) (by decide)
  rw [h]
  simp [sortAgents, Agent.mk0]

/-- C9 (amended): when `clone_n = 0` and `eliminate_n ≤ K`,
`evolve_population` clones every agent and returns `2K - eliminate_n` agents;
and for `1 ≤ clone_n ≤ K`, `eliminate_n ≤ K`, population size is conserved
iff `clone_n = eliminate_n`. (With `clone_n = 0`, size is conserved exactly
when `eliminate_n = K`, so conservation does not require `clone_n ≥ 1`.) -/
theorem C9_clone_zero_clones_everyone :
    (∀ (agents : List Agent) (e : Nat), e ≤ agents.length →
        (evolve_population agents e 0).length = 2 * agents.length - e) ∧
    (∀ (agents : List Agent) (e c : Nat),
        1 ≤ c → c ≤ agents.length → e ≤ agents.length →
        ((evolve_population agents e c).length = agents.length ↔ c = e)) := by
  constructor
  · intro agents e he
    rw [evolve_population_length]
    split <;> omega
  · intro agents e c hc1 hc he
    rw [evolve_population_length]
    split <;> omega

/-- C9 witness: on two agents, eliminating 1 and cloning 0 yields
`2*2 - 1 = 3` agents; and with `clone_n = 1 ≠ eliminate_n = 0` size is not
conserved. -/
theorem C9_clone_zero_clones_everyone_witness :
    (evolve_population [Agent.mk0 .AlwaysTrust, Agent.mk0 .AlwaysCheat] 1 0).length = 3 ∧
    ¬ (evolve_population [Agent.mk0 .AlwaysTrust, Agent.mk0 .AlwaysCheat] 0 1).length = 2 := by
  constructor
  · have h := C9_clone_zero_clones_everyone.1
      [Agent.mk0 .AlwaysTrust, Agent.mk0 .AlwaysCheat] 1 (by decide)
    simpa using h
  · have h := (C9_clone_zero_clones_everyone.2
      [Agent.mk0 .AlwaysTrust, Agent.mk0 .AlwaysCheat] 0 1 (by decide) (by decide) (by decide))
    simp only [List.length_cons, List.length_nil] at h
    intro hcon
    exact absurd (h.mp hcon) (by decide)

/-- C9 counterexample: `eliminate_n = 1 = K`, `clone_n = 0` conserves the
population size (the whole population is cloned after everyone is
eliminated), refuting "size is conserved only when `clone_n = eliminate_n`
and `clone_n ≥ 1`". -/
theorem C9_conservation_without_cloning :
    (evolve_population [Agent.mk0 .AlwaysTrust] 1 0).length = 1 ∧ (0 : Nat) ≠ 1 := by
  rw [evolve_population_length]
  simp

/-- The tournament loop emits one match record per pair, in loop order, with
exactly that pair's indices, regardless of the threaded agent state. -/
theorem runMatches_pair_map (randA randB : Nat → Nat → Action) (rolls : Nat → Nat) :
    ∀ (ps : List (Nat × Nat)) (m : Nat) (ags : List Agent),
      (runMatches randA randB rolls ps m ags).1.map
        (fun r => (r.agent_index, r.opponent_index)) = ps := by
  intro ps
  induction ps with
  | nil => intro m ags; simp [runMatches]
  | cons p ps ih =>
      intro m ags
      obtain ⟨i, j⟩ := p
      simp [runMatches, ih]

/-- The inner `for j ... if i < j` loop yields `k - (i+1)` indices. -/
theorem range_filter_lt_length (i : Nat) :
    ∀ k, ((List.range k).filter fun j => decide (i < j)).length = k - (i + 1) := by
  intro k
  induction k with
  | zero => simp
  | succ n ih =>
      rw [List.range_succ, List.filter_append, List.length_append, ih]
      by_cases h : i < n
      · simp only [List.filter, decide_eq_true h]
        simp
        omega
      · simp only [List.filter, decide_eq_false h]
        simp
        omega

/-- `pairsList k` has `k * (k-1) / 2` elements. -/
theorem pairsList_length (k : Nat) : (pairsList k).length = k * (k - 1) / 2 := by
  rw [pairsList, List.length_flatMap]
  have h1 : List.map
      (List.length ∘ fun i => ((List.range k).filter fun j => decide (i < j)).map fun j => (i, j))
      (List.range k) = (List.range k).map fun i => k - 1 - i := by
    apply List.map_congr_left
    intro i _
    simp only [Function.comp_apply, List.length_map, range_filter_lt_length]
    omega
  rw [h1]
  have h2 : ((List.range k).map fun i => k - 1 - i).sum
      = ∑ i in Finset.range k, (k - 1 - i) := rfl
  rw [h2, Finset.sum_range_reflect (fun j => j) k, Finset.sum_range_id]

/-- `(i, j)` is produced by the tournament's nested loops iff `i < j < k`. -/
theorem pairsList_mem (k i j : Nat) : (i, j) ∈ pairsList k ↔ i < j ∧ j < k := by
  simp only [pairsList, List.mem_flatMap, List.mem_map, List.mem_filter, List.mem_range,
    decide_eq_true_eq, Prod.mk.injEq]
  constructor
  · rintro ⟨a, ha, b, ⟨hbk, hab⟩, rfl, rfl⟩
    exact ⟨hab, hbk⟩
  · rintro ⟨hij, hjk⟩
    exact ⟨i, by omega, j, ⟨hjk, hij⟩, rfl, rfl⟩

/-- No pair is produced twice by the tournament's nested loops. -/
theorem pairsList_nodup (k : Nat) : (pairsList k).Nodup := by
  rw [pairsList, List.nodup_flatMap]
  constructor
  · intro i _
    exact List.Nodup.map (fun a b h => by simpa using h) ((List.nodup_range k).filter _)
  · refine (List.nodup_range k).imp ?_
    intro a b hab x hxa hxb
    simp only [List.mem_map, List.mem_filter] at hxa hxb
    obtain ⟨ja, -, rfl⟩ := hxa
    obtain ⟨jb, -, h⟩ := hxb
    exact hab (congrArg Prod.fst h).symm

/-- C5: on a population of size `K`, `run_tournament_record` produces exactly
`K*(K-1)/2` match records whose `(agent_index, opponent_index)` pairs are
precisely the pairs `i < j < K`, each unordered pair appearing exactly once
(single round-robin), for every round-count specification and every source of
randomness. -/
theorem C5_tournament_single_round_robin :
    ∀ (agents : List Agent) (spec : RoundsSpec) (randint : Nat → Nat → Nat → Nat)
      (randA randB : Nat → Nat → Action),
      (run_tournament_record agents spec randint randA randB).1.length
        = agents.length * (agents.length - 1) / 2 ∧
      ((run_tournament_record agents spec randint randA randB).1.map
        fun r => (r.agent_index, r.opponent_index)) = pairsList agents.length ∧
      (∀ i j : Nat, (i, j) ∈ pairsList agents.length ↔ i < j ∧ j < agents.length) ∧
      (pairsList agents.length).Nodup := by
  intro agents spec randint randA randB
  have hmap := runMatches_pair_map randA randB
    (fun m => match spec with
      | .inl n => n
      | .inr lohi => randint m lohi.1 lohi.2)
    (pairsList agents.length) 0 agents
  refine ⟨?_, hmap, fun i j => pairsList_mem _ i j, pairsList_nodup _⟩
  have hlen := congrArg List.length hmap
  rw [List.length_map] at hlen
  rw [run_tournament_record, hlen, pairsList_length]

/-- Appending a round to the history makes that round's opponent move the
last-seen opponent move. -/
theorem lastOpp_append (h : List (Action × Action)) (o m : Action) :
    lastOpp (h ++ [(o, m)]) = o := by
  simp [lastOpp, List.reverse_append]

/-- Once Detective has switched (or the history already shows an opponent
defection), every subsequent move mirrors the opponent's immediately
preceding action. -/
theorem detectiveRun_mirror :
    ∀ (os : List Action) (h : List (Action × Action)) (sw : Bool),
      (sw || h.any fun p => p.1 == CHEAT) = true → h ≠ [] →
      detectiveRun os h sw = (lastOpp h :: os).take os.length := by
  intro os
  induction os with
  | nil => intro h sw _ _; rfl
  | cons o os ih =>
      intro h sw hsw hne
      obtain ⟨p, t, rfl⟩ : ∃ p t, h = p :: t := by
        cases h with
        | nil => exact absurd rfl hne
        | cons p t => exact ⟨p, t, rfl⟩
      have hd : Strategy.decide .Detective sw (p :: t) TRUST = (lastOpp (p :: t), true) := by
        simp only [Strategy.decide]
        rw [hsw]
        simp
      show (Strategy.decide .Detective sw (p :: t) TRUST).1 ::
          detectiveRun os ((p :: t) ++ [(o, (Strategy.decide .Detective sw (p :: t) TRUST).1)])
            (Strategy.decide .Detective sw (p :: t) TRUST).2
        = (lastOpp (p :: t) :: o :: os).take (os.length + 1)
      rw [hd, List.take_succ_cons]
      simp only
      congr 1
      rw [ih ((p :: t) ++ [(o, lastOpp (p :: t))]) true (by simp) (by simp),
        lastOpp_append]

/-- Against a clean opening (no opponent defection in rounds 1-4), Detective
plays the probe, defects at round 5, and from round 6 on mirrors the
opponent's immediately preceding action. -/
theorem detective_clean_probe (o : Action) (os' : List Action) :
    detectiveMoves (TRUST :: TRUST :: TRUST :: TRUST :: o :: os')
      = TRUST :: CHEAT :: TRUST :: TRUST :: CHEAT :: ((o :: os').take os'.length) := by
  have h1 : detectiveMoves (TRUST :: TRUST :: TRUST :: TRUST :: o :: os')
      = TRUST :: CHEAT :: TRUST :: TRUST :: CHEAT ::
          detectiveRun os'
            [(TRUST, TRUST), (TRUST, CHEAT), (TRUST, TRUST), (TRUST, TRUST), (o, CHEAT)]
            true := rfl
  rw [h1, detectiveRun_mirror os' _ true (by simp) (by simp)]
  rfl

/-- A match of at most 4 rounds in which the opponent only cooperates shows
exactly a prefix of the probe. -/
theorem detective_short_clean :
    ∀ (os : List Action), os.length ≤ 4 → (∀ a ∈ os, a = TRUST) →
      detectiveMoves os = probeList.take os.length := by
  intro os hlen hT
  rcases os with _ | ⟨a, _ | ⟨b, _ | ⟨c, _ | ⟨d, _ | ⟨e, t⟩⟩⟩⟩⟩
  · rfl
  · obtain rfl : a = TRUST := hT a (by simp)
    rfl
  · obtain rfl : a = TRUST := hT a (by simp)
    obtain rfl : b = TRUST := hT b (by simp)
    rfl
  · obtain rfl : a = TRUST := hT a (by simp)
    obtain rfl : b = TRUST := hT b (by simp)
    obtain rfl : c = TRUST := hT c (by simp)
    rfl
  · obtain rfl : a = TRUST := hT a (by simp)
    obtain rfl : b = TRUST := hT b (by simp)
    obtain rfl : c = TRUST := hT c (by simp)
    obtain rfl : d = TRUST := hT d (by simp)
    rfl
  · simp at hlen

/-- If the opponent's first defection happens in rounds 1-4 (after `pre`
clean rounds, `|pre| ≤ 3`), Detective plays the probe prefix through the
round after the defection, then mirrors the opponent's immediately preceding
action for the rest of the match. -/
theorem detective_defect_in_probe :
    ∀ (pre os : List Action), pre.length ≤ 3 → (∀ a ∈ pre, a = TRUST) →
      detectiveMoves (pre ++ CHEAT :: os)
        = probeList.take (pre.length + 1) ++ ((CHEAT :: os).take os.length) := by
  intro pre os hlen hT
  rcases pre with _ | ⟨a, _ | ⟨b, _ | ⟨c, _ | ⟨d, t⟩⟩⟩⟩
  · have h1 : detectiveMoves ([] ++ CHEAT :: os)
        = TRUST :: detectiveRun os [(CHEAT, TRUST)] false := rfl
    rw [h1, detectiveRun_mirror os _ false (by simp) (by simp)]
    rfl
  · obtain rfl : a = TRUST := hT a (by simp)
    have h1 : detectiveMoves ([TRUST] ++ CHEAT :: os)
        = TRUST :: CHEAT :: detectiveRun os [(TRUST, TRUST), (CHEAT, CHEAT)] false := rfl
    rw [h1, detectiveRun_mirror os _ false (by simp) (by simp)]
    rfl
  · obtain rfl : a = TRUST := hT a (by simp)
    obtain rfl : b = TRUST := hT b (by simp)
    have h1 : detectiveMoves ([TRUST, TRUST] ++ CHEAT :: os)
        = TRUST :: CHEAT :: TRUST ::
            detectiveRun os [(TRUST, TRUST), (TRUST, CHEAT), (CHEAT, TRUST)] false := rfl
    rw [h1, detectiveRun_mirror os _ false (by simp) (by simp)]
    rfl
  · obtain rfl : a = TRUST := hT a (by simp)
    obtain rfl : b = TRUST := hT b (by simp)
    obtain rfl : c = TRUST := hT c (by simp)
    have h1 : detectiveMoves ([TRUST, TRUST, TRUST] ++ CHEAT :: os)
        = TRUST :: CHEAT :: TRUST :: TRUST ::
            detectiveRun os
              [(TRUST, TRUST), (TRUST, CHEAT), (TRUST, TRUST), (CHEAT, TRUST)] false := rfl
    rw [h1, detectiveRun_mirror os _ false (by simp) (by simp)]
    rfl
  · simp at hlen

/-- C3 (amended): Detective plays the probe `[cooperate, defect, cooperate,
cooperate]` on rounds 1-4 while the opponent has not defected; against a
clean 4-round opening, the round-5 decision is defect, and from round 6 on
Detective mirrors the opponent's immediately preceding action (rather than
unconditionally defecting); given an opponent defection within rounds 1-4,
from the round after the first defect onward every decision equals the
opponent's immediately preceding action. -/
theorem C3_detective_probe_defect_mirror :
    (∀ (os : List Action), os.length ≤ 4 → (∀ a ∈ os, a = TRUST) →
        detectiveMoves os = probeList.take os.length) ∧
    (∀ (o : Action) (os' : List Action),
        detectiveMoves (TRUST :: TRUST :: TRUST :: TRUST :: o :: os')
          = TRUST :: CHEAT :: TRUST :: TRUST :: CHEAT :: ((o :: os').take os'.length)) ∧
    (∀ (pre os : List Action), pre.length ≤ 3 → (∀ a ∈ pre, a = TRUST) →
        detectiveMoves (pre ++ CHEAT :: os)
          = probeList.take (pre.length + 1) ++ ((CHEAT :: os).take os.length)) :=
  ⟨detective_short_clean, detective_clean_probe, detective_defect_in_probe⟩

/-- C3 witness: opponent plays cooperate, defect, cooperate; Detective plays
cooperate, defect (probe), then mirrors the defect. -/
theorem C3_detective_probe_defect_mirror_witness :
    detectiveMoves ([TRUST] ++ CHEAT :: [TRUST])
      = probeList.take 2 ++ ((CHEAT :: [TRUST]).take 1) :=
  C3_detective_probe_defect_mirror.2.2 [TRUST] [TRUST] (by decide) (by decide)

/-- C3 counterexample: against six rounds of cooperation, Detective's round-6
decision is cooperate (it mirrors the opponent's round-5 cooperation), so it
does NOT unconditionally defect from round 5 onward. -/
theorem C3_detective_not_always_defect_after_probe :
    detectiveMoves [TRUST, TRUST, TRUST, TRUST, TRUST, TRUST]
      = [TRUST, CHEAT, TRUST, TRUST, CHEAT, TRUST] ∧ TRUST ≠ CHEAT := by
  decide

/-- The coerced action is always one of the two legal strings. -/
theorem normalizeMove_legal (a : Option String) :
    normalizeMove a = "TRUST" ∨ normalizeMove a = "CHEAT" := by
  rw [normalizeMove]
  split
  · exact Or.inl rfl
  · next h =>
      rcases not_not.mp h with h' | h'
      · exact Or.inl h'
      · exact Or.inr h'

/-- The truncated rationale never exceeds 40 characters. -/
theorem normalizeReason_length_le (r : Option String) :
    (normalizeReason r).length ≤ 40 := by
  rw [normalizeReason, String.take_eq]
  exact List.length_take_le _ _

/-- Every normal return of the retry loop carries a legal action and a
rationale of at most 40 characters. -/
theorem call_claude_go_ok_shape (attempts : Nat → Attempt) :
    ∀ (remaining i : Nat) (m r : String),
      call_claude_go attempts i remaining = .ok (m, r) →
      (m = "TRUST" ∨ m = "CHEAT") ∧ r.length ≤ 40 := by
  intro remaining
  induction remaining with
  | zero =>
      intro i m r h
      rw [call_claude_go] at h
      cases ha : attempts i <;> rw [ha] at h
      · exact absurd h (by simp)
      · obtain ⟨rfl, rfl⟩ : "TRUST" = m ∧ "Claude error: see logs" = r := by
          simpa using h
        exact ⟨Or.inl rfl, by decide⟩
      · next a re =>
          obtain ⟨rfl, rfl⟩ : normalizeMove a = m ∧ normalizeReason re = r := by
            simpa using h
          exact ⟨normalizeMove_legal a, normalizeReason_length_le re⟩
  | succ n ih =>
      intro i m r h
      rw [call_claude_go] at h
      cases ha : attempts i <;> rw [ha] at h
      · exact absurd h (by simp)
      · exact ih (i + 1) m r h
      · next a re =>
          obtain ⟨rfl, rfl⟩ : normalizeMove a = m ∧ normalizeReason re = r := by
            simpa using h
          exact ⟨normalizeMove_legal a, normalizeReason_length_le re⟩

/-- When every attempt's `try` body fails (without the `requests.post` call
itself raising), the loop retries and finally returns the diagnostic
fallback instead of raising. -/
theorem call_claude_go_all_parse_failures :
    ∀ (remaining i : Nat),
      call_claude_go (fun _ => .parseFails) i remaining
        = .ok ("TRUST", "Claude error: see logs") := by
  intro remaining
  induction remaining with
  | zero => intro i; rfl
  | succ n ih => intro i; rw [call_claude_go]; exact ih (i + 1)

/-- C10: every successfully parsed provider response yields an action that is
`TRUST` or `CHEAT` — an unrecognised action string (case-insensitively) is
mapped to `TRUST` — with a rationale of at most 40 characters, and a parse or
HTTP-status failure yields the `(TRUST, diagnostic)` fallback instead of
raising from the parsing path. -/
theorem C10_call_claude_safe_output :
    (∀ (attempts : Nat → Attempt) (mr : Nat) (m r : String),
        call_claude attempts mr = .ok (m, r) →
        (m = "TRUST" ∨ m = "CHEAT") ∧ r.length ≤ 40) ∧
    (∀ (mr : Nat) (a re : Option String),
        call_claude (fun _ => .parsed a re) mr
          = .ok (normalizeMove a, normalizeReason re)) ∧
    (∀ s : String, s.toUpper ≠ "TRUST" → s.toUpper ≠ "CHEAT" →
        normalizeMove (some s) = "TRUST") ∧
    (∀ mr : Nat,
        call_claude (fun _ => .parseFails) mr
          = .ok ("TRUST", "Claude error: see logs")) := by
  refine ⟨?_, ?_, ?_, ?_⟩
  · intro attempts mr m r h
    exact call_claude_go_ok_shape attempts mr 0 m r h
  · intro mr a re
    cases mr <;> rfl
  · intro s h1 h2
    simp [normalizeMove, h1, h2]
  · intro mr
    exact call_claude_go_all_parse_failures mr 0

/-- C10 witness: an all-parse-failure run returns the fallback, whose action
is legal and whose rationale fits in 40 characters. -/
theorem C10_call_claude_safe_output_witness :
    (("TRUST" : String) = "TRUST" ∨ ("TRUST" : String) = "CHEAT") ∧
    ("Claude error: see logs" : String).length ≤ 40 :=
  C10_call_claude_safe_output.1 (fun _ => .parseFails) 0 "TRUST"
    "Claude error: see logs" rfl

/-- C8 (amended): failures of the `try` body of `call_claude` (bad HTTP
status, malformed payload, out-of-range action) fall back to cooperate with
a diagnostic rationale and the match loop continues with that round; but a
failure of the `requests.post` call itself (e.g. a timeout) — which sits
outside the `try` block — propagates, and `_run_simulation` then stops the
match without recording the round. -/
theorem C8_provider_failure_handling :
    (∀ (attempts : Nat → Attempt) (mr : Nat),
        (∀ i, attempts i ≠ .postRaises) →
        ∃ m r, call_claude attempts mr = .ok (m, r) ∧
          simRoundClaude (call_claude attempts mr) = some (m, r)) ∧
    (∀ mr : Nat,
        simRoundClaude (call_claude (fun _ => .parseFails) mr)
          = some ("TRUST", "Claude error: see logs")) ∧
    (∀ (attempts : Nat → Attempt) (mr : Nat), attempts 0 = .postRaises →
        simRoundClaude (call_claude attempts mr) = none) := by
  refine ⟨?_, ?_, ?_⟩
  · intro attempts mr hnp
    suffices h : ∀ (remaining i : Nat),
        ∃ m r, call_claude_go attempts i remaining = .ok (m, r) by
      obtain ⟨m, r, hmr⟩ := h mr 0
      exact ⟨m, r, hmr, by rw [call_claude, hmr]; rfl⟩
    intro remaining
    induction remaining with
    | zero =>
        intro i
        rw [call_claude_go]
        cases ha : attempts i
        · exact absurd ha (hnp i)
        · exact ⟨_, _, rfl⟩
        · exact ⟨_, _, rfl⟩
    | succ n ih =>
        intro i
        rw [call_claude_go]
        cases ha : attempts i
        · exact absurd ha (hnp i)
        · exact ih (i + 1)
        · exact ⟨_, _, rfl⟩
  · intro mr
    rw [call_claude, call_claude_go_all_parse_failures mr 0]
    rfl
  · intro attempts mr h0
    cases mr with
    | zero => rw [call_claude, call_claude_go, h0]; rfl
    | succ n => rw [call_claude, call_claude_go, h0]; rfl

/-- C8 witness: with all attempts failing to parse (but the HTTP post
succeeding), the round still gets an action and the match continues. -/
theorem C8_provider_failure_handling_witness :
    ∃ m r, call_claude (fun _ => .parseFails) 0 = .ok (m, r) ∧
      simRoundClaude (call_claude (fun _ => .parseFails) 0) = some (m, r) :=
  C8_provider_failure_handling.1 (fun _ => .parseFails) 0
    (fun _ h => Attempt.noConfusion h)

/-- C8 counterexample: when the HTTP request itself fails on the first
attempt, `call_claude` raises (it does not fall back to cooperate) and
`_run_simulation` aborts the in-progress match: the round is not recorded. -/
theorem C8_transport_failure_aborts_match :
    simRoundClaude (call_claude (fun _ => .postRaises) 1) = none := rfl

end TrustSim
